import Mathlib

/-!
# Verification of `generateSentences.py`

A shallow embedding of the sentence-generator of this repository.  The
Python module builds a vocabulary of question words, pronouns and verbs,
and drives a small state machine (optional question word → pronoun →
finite verb → optional infinitive verb) whose word choices are biased
towards a list of "words to learn".

Modelling choices, kept uniform through the file:

* Randomness.  Python draws `random.randrange(0, len(l))` (a uniform
  index) and `random.getrandbits(1)` (a fair coin).  We thread an
  explicit stream `List Nat` of raw draws; each primitive draw consumes
  one element (`draw`), `randrange(0, n)` is modelled as `r % n`, and
  `getrandbits(1)` as `c % 2`.  "Uniformly random element of `l`" is
  thus rendered as `randomWordFromList l r`, which returns `l[r % |l|]`.
  The Python `or` short-circuits, so a coin that Python never draws
  consumes nothing from the stream.
* Failure.  Python exceptions become `Except GenError`.  The error
  names follow the error kinds of the specification: `emptyVocabulary` for
  the `ValueError`/`IndexError` raised when the candidate
  collection of a selection step is empty (`random.randrange(0, 0)` or `wordList[0]` on an
  empty list), `unknownLearningTarget` for the `KeyError` of a failed
  `wordTextToWord[...]` lookup, `malformedConjugationTable` for the
  `IndexError` of `verb.forms.conjugations[i]`, and `invalidState` for
  the `AttributeError`s of touching a `None` field or a word of the
  wrong class (unreachable from well-formed inputs).
* Strings.  Python strings are code-point sequences; the Python
  `str.lower`/`str.capitalize` are modelled by `pyLower`/`pyCapitalize`
  over the alphabets the program uses (ASCII and the Cyrillic block
  А-Я/а-я with Ё/ё); other code points are left unchanged, matching
  Python on all characters without case in those ranges (digits,
  spaces, punctuation).
* The Python `while` loop of `generateSentence` is unbounded; we run it
  on fuel (`runLoop`) and prove that from the initial states of the machine
  every run stabilises within 4 steps, so `generateSentence` runs the
  loop with fuel 4.
-/

/-- Python exceptions of the generator, named after the error kinds of the
specification (§7); see the module comment for the exception ↔ name map. -/
inductive GenError where
  | emptyVocabulary
  | unknownLearningTarget
  | malformedConjugationTable
  | invalidState
deriving DecidableEq, Repr

/-! ## Python string case mapping (ASCII + Cyrillic) -/

/-- Python `str.lower` on one code point, restricted to the alphabets the
program manipulates: ASCII `A`-`Z` (`0x41`-`0x5A`), Cyrillic `А`-`Я`
(`0x410`-`0x42F`) and `Ё` (`0x401`); anything else is unchanged. -/
def lowerNat (n : Nat) : Nat :=
  if 0x41 ≤ n ∧ n ≤ 0x5A then n + 32
  else if 0x410 ≤ n ∧ n ≤ 0x42F then n + 32
  else if n = 0x401 then 0x451
  else n

/-- Python `str.upper` on one code point, on the same alphabets. -/
def upperNat (n : Nat) : Nat :=
  if 0x61 ≤ n ∧ n ≤ 0x7A then n - 32
  else if 0x430 ≤ n ∧ n ≤ 0x44F then n - 32
  else if n = 0x451 then 0x401
  else n

def pyCharLower (c : Char) : Char := Char.ofNat (lowerNat c.toNat)

def pyCharUpper (c : Char) : Char := Char.ofNat (upperNat c.toNat)

/-- Python `str.lower`. -/
def pyLower (s : String) : String := String.mk (s.data.map pyCharLower)

/-- Python `str.capitalize`: upper-case the first code point, lower-case
the rest; `""` stays `""`. -/
def pyCapitalize (s : String) : String :=
  match s.data with
  | [] => s
  | c :: cs => String.mk (pyCharUpper c :: cs.map pyCharLower)

/-- Python `" ".join`. -/
def pyJoin : List String → String
  | [] => ""
  | [s] => s
  | s :: rest => s ++ " " ++ pyJoin rest

/-! ## Vocabulary model (`WordType` … `Words`) -/

inductive WordType where
  | Question
  | Pronoun
  | Verb
deriving DecidableEq, Repr

inductive PronounName where
  | I
  | You
  | He
  | She
  | We
  | YouPlural
  | They
deriving DecidableEq, Repr

/-- The string value of the `PronounName` enum.  `We` is spelled with a
LATIN CAPITAL LETTER M followed by Cyrillic `ы`, exactly as in the
source file. -/
def PronounName.value : PronounName → String
  | .I => "Я"
  | .You => "Ты"
  | .He => "Он"
  | .She => "Она"
  | .We => "Mы"
  | .YouPlural => "Вы"
  | .They => "Они"

inductive VerbQuestion where
  | ToWhom
  | Whom
  | WithWhom
  | AboutWhom
deriving DecidableEq, Repr

inductive SingleOrPlural where
  | Singular
  | Plural
deriving DecidableEq, Repr

/-- `ConjugationType`, whose numeric enum values index the conjugation
table (`First = 0`, `Second = 1`, `Third = 2`, `Infinitive = 3`). -/
inductive ConjugationType where
  | Infinitive
  | First
  | Second
  | Third
deriving DecidableEq, Repr

def ConjugationType.value : ConjugationType → Nat
  | .Infinitive => 3
  | .First => 0
  | .Second => 1
  | .Third => 2

structure WordForm where
  conjugationType : ConjugationType
  singleOrPlural : Option SingleOrPlural := none
deriving DecidableEq, Repr

structure Conjugation where
  singular : String
  plural : String
deriving DecidableEq, Repr

structure VerbForms where
  infinitive : String
  conjugations : List Conjugation
deriving DecidableEq, Repr

/-- The payload of a `VerbWord`: forms, the `expectInfinitive` flag and
the (unused by generation) question tags. -/
structure VerbWordData where
  forms : VerbForms
  expectInfinitive : Bool
  questions : List VerbQuestion := []
deriving DecidableEq, Repr

/-- The `Word` class hierarchy (`QuestionWord`, `PronounWord`,
`VerbWord`) as one sum; the `type` discriminator that `main` always sets
to match the subclass is derived from the constructor. -/
inductive Word where
  | questionWord (text : String)
  | pronounWord (pronounName : PronounName)
  | verbWord (v : VerbWordData)
deriving DecidableEq, Repr

def Word.type : Word → WordType
  | .questionWord _ => .Question
  | .pronounWord _ => .Pronoun
  | .verbWord _ => .Verb

/-- `word.expectInfinitive`.  Only ever read after a `type == Verb`
check in the source (Python `and` short-circuits), so the default
`false` for the other classes is never observable. -/
def Word.expectInfinitive : Word → Bool
  | .verbWord v => v.expectInfinitive
  | _ => false

structure Words where
  questionWords : List Word := []
  pronouns : List Word := []
  verbs : List Word := []
deriving Repr

/-! ## Word rendering and agreement -/

/-- `wordText` (decorated with `textLowercase`): the surface text of the word,
lower-cased. -/
def wordText (w : Word) : String :=
  pyLower (match w with
    | .questionWord text => text
    | .pronounWord pronounName => pronounName.value
    | .verbWord v => v.forms.infinitive)

/-- `pronounForm`: the fixed pronoun → grammatical form table. -/
def pronounForm : PronounName → WordForm
  | .I => { conjugationType := .First, singleOrPlural := some .Singular }
  | .You => { conjugationType := .Second, singleOrPlural := some .Singular }
  | .He => { conjugationType := .Third, singleOrPlural := some .Singular }
  | .She => { conjugationType := .Third, singleOrPlural := some .Singular }
  | .We => { conjugationType := .First, singleOrPlural := some .Plural }
  | .YouPlural => { conjugationType := .Second, singleOrPlural := some .Plural }
  | .They => { conjugationType := .Third, singleOrPlural := some .Plural }

/-- `pronounForm` applied to a picked `Word`; on a non-pronoun the
Python code would hit no `match` case and fall off the function
(an invalid state), modelled as `none`. -/
def pronounFormOfWord : Word → Option WordForm
  | .pronounWord pronounName => some (pronounForm pronounName)
  | _ => none

/-- `verbTextInForm` (decorated with `textLowercase`): the infinitive
for `Infinitive` forms, otherwise `conjugations[person]` selecting the
singular column iff the number of the form is `Singular`; a missing
conjugation entry raises (IndexError, called
`MalformedConjugationTable` by the specification). -/
def verbTextInForm (verb : VerbWordData) (form : WordForm) : Except GenError String :=
  match form.conjugationType with
  | .Infinitive => .ok (pyLower verb.forms.infinitive)
  | ct =>
    match verb.forms.conjugations.get? ct.value with
    | none => .error .malformedConjugationTable
    | some conjugation =>
      .ok (pyLower (if form.singleOrPlural = some .Singular
        then conjugation.singular else conjugation.plural))

/-! ## Lexical index -/

/-- The `wordTextToWord` dictionary, as an insertion-ordered association
list (later bindings shadow earlier ones, as Python dict assignment
does). -/
def makeWordsByText (words : Words) : List (String × Word) :=
  (words.questionWords ++ words.pronouns ++ words.verbs).map (fun w => (wordText w, w))

/-- Python `d[k]` on the association list: the last binding wins. -/
def dictGet (d : List (String × Word)) (k : String) : Option Word :=
  d.reverse.lookup k

/-- Resolve every learning-target string through the dictionary, left to
right, failing at the first missing key exactly as the Python list
comprehensions `[wordTextToWord[t] for t in wordsToLearn …]` do
(KeyError, called `UnknownLearningTarget` by the specification). -/
def resolveTargets (d : List (String × Word)) (targets : List String) :
    Except GenError (List Word) :=
  targets.mapM (fun t =>
    match dictGet d t with
    | some w => Except.ok w
    | none => Except.error GenError.unknownLearningTarget)

/-! ## Selection policy -/

/-- One raw draw from the random stream (the stream is conceptually
infinite; an exhausted list yields `0`, irrelevant to the theorems,
which quantify over the stream). -/
def draw : List Nat → Nat × List Nat
  | [] => (0, [])
  | n :: rest => (n, rest)

/-- `randomWordFromList`: `wordList[random.randrange(0, len(wordList))]`
with the raw draw `r` supplied; `randrange` on an empty range raises
(ValueError, called `EmptyVocabulary` by the specification). -/
def randomWordFromList (wordList : List Word) (r : Nat) : Except GenError Word :=
  if h : wordList.length = 0 then .error .emptyVocabulary
  else .ok (wordList.get ⟨r % wordList.length, Nat.mod_lt r (Nat.pos_of_ne_zero h)⟩)

/-- `newOrAnyWord` (`pickByType` in the spec), threading the random
stream.  Reads `wordList[0].type` first — on an empty collection this
fails before the targets are even resolved (the `EmptyVocabulary`
condition of the specification for an empty candidate collection). -/
def newOrAnyWordR (wordList : List Word) (d : List (String × Word))
    (wordsToLearn : List String) (rng : List Nat) :
    Except GenError (Word × List Nat) :=
  match wordList.head? with
  | none => .error .emptyVocabulary
  | some w0 =>
    match resolveTargets d wordsToLearn with
    | .error e => .error e
    | .ok resolved =>
      let wordsToLearnOfType := resolved.filter (fun w => w.type == w0.type)
      let (r, rng') := draw rng
      if wordsToLearnOfType.length > 0 then
        (randomWordFromList wordsToLearnOfType r).map (fun w => (w, rng'))
      else
        (randomWordFromList wordList r).map (fun w => (w, rng'))

/-- `newOrAnyVerb` (`pickVerb` in the spec).  `any([verb for verb in
verbsToLearn if verb.expectInfinitive])` is truthy iff some targeted
verb has the flag; only when it is falsy does Python evaluate
`bool(random.getrandbits(1))`, so the coin is drawn from the stream only
in that branch. -/
def newOrAnyVerbR (verbList : List Word) (d : List (String × Word))
    (wordsToLearn : List String) (rng : List Nat) :
    Except GenError (Word × List Nat) :=
  match resolveTargets d wordsToLearn with
  | .error e => .error e
  | .ok resolved =>
    let verbsToLearn := resolved.filter (fun w => w.type == WordType.Verb)
    if verbsToLearn.length > 0 then
      if verbsToLearn.any (fun verb => verb.expectInfinitive) then
        let (r, rng') := draw rng
        (randomWordFromList verbsToLearn r).map (fun w => (w, rng'))
      else
        let (c, rng₁) := draw rng
        if c % 2 == 1 then
          let (r, rng') := draw rng₁
          (randomWordFromList verbsToLearn r).map (fun w => (w, rng'))
        else
          let (r, rng') := draw rng₁
          (randomWordFromList (verbList.filter (fun verb => verb.expectInfinitive)) r).map
            (fun w => (w, rng'))
    else
      let (r, rng') := draw rng
      (randomWordFromList verbList r).map (fun w => (w, rng'))

/-- `newOrAnyNotExpectsInfinitiveVerb` (`pickNonInfinitiveGoverningVerb`
in the spec). -/
def newOrAnyNotExpectsInfinitiveVerbR (verbList : List Word) (d : List (String × Word))
    (wordsToLearn : List String) (rng : List Nat) :
    Except GenError (Word × List Nat) :=
  match resolveTargets d wordsToLearn with
  | .error e => .error e
  | .ok resolved =>
    let verbsToLearn := resolved.filter
      (fun w => w.type == WordType.Verb && !w.expectInfinitive)
    let (r, rng') := draw rng
    if verbsToLearn.length > 0 then
      (randomWordFromList verbsToLearn r).map (fun w => (w, rng'))
    else
      (randomWordFromList (verbList.filter (fun verb => !verb.expectInfinitive)) r).map
        (fun w => (w, rng'))

/-! ## Sentence state machine -/

inductive NextPartType where
  | Word
  | VerbQuestion
deriving DecidableEq, Repr

structure NextPart where
  type : NextPartType
  wordType : Option WordType := none
  wordForm : Option WordForm := none
  verbQuestion : Option VerbQuestion := none
deriving DecidableEq, Repr

structure SentenceGenerator where
  startWithQuestion : Bool
  sentence : List String
  nextPart : Option NextPart
deriving DecidableEq, Repr

/-- `SentenceGenerator.__init__`. -/
def SentenceGenerator.init (startWithQuestion : Bool) : SentenceGenerator :=
  { startWithQuestion
    sentence := []
    nextPart :=
      if startWithQuestion then
        some { type := .Word, wordType := some .Question }
      else
        some { type := .Word, wordType := some .Pronoun } }

/-- `SentenceGenerator.generateNextPart`.  Returns the updated
generator, the remaining random stream and the value of the Python
`return self.nextPart != None`.  `none` fields that Python would
dereference (`self.nextPart.type` on `None`, `wordForm.conjugationType`
on `None`) raise `AttributeError`, modelled as `invalidState`; a
`wordType` matched by no `case` leaves the generator untouched with
`nextPart` still set, as in the source. -/
def generateNextPart (words : Words) (d : List (String × Word))
    (wordsToLearn : List String) (g : SentenceGenerator) (rng : List Nat) :
    Except GenError (SentenceGenerator × List Nat × Bool) :=
  match g.nextPart with
  | none => .error .invalidState
  | some np =>
    match np.type with
    | .VerbQuestion => .ok ({ g with nextPart := none }, rng, false)
    | .Word =>
      match np.wordType with
      | none => .ok (g, rng, true)
      | some .Question =>
        match newOrAnyWordR words.questionWords d wordsToLearn rng with
        | .error e => .error e
        | .ok (w, rng') =>
          .ok ({ g with
                  sentence := g.sentence ++ [wordText w]
                  nextPart := some { type := .Word, wordType := some .Pronoun } },
               rng', true)
      | some .Pronoun =>
        match newOrAnyWordR words.pronouns d wordsToLearn rng with
        | .error e => .error e
        | .ok (pronoun, rng') =>
          match pronounFormOfWord pronoun with
          | none => .error .invalidState
          | some form =>
            .ok ({ g with
                    sentence := g.sentence ++ [wordText pronoun]
                    nextPart := some { type := .Word, wordType := some .Verb,
                                       wordForm := some form } },
                 rng', true)
      | some .Verb =>
        match np.wordForm with
        | none => .error .invalidState
        | some wordForm =>
          if wordForm.conjugationType = ConjugationType.Infinitive then
            match newOrAnyNotExpectsInfinitiveVerbR words.verbs d wordsToLearn rng with
            | .error e => .error e
            | .ok (w, rng') =>
              .ok ({ g with sentence := g.sentence ++ [wordText w], nextPart := none },
                   rng', false)
          else
            match newOrAnyVerbR words.verbs d wordsToLearn rng with
            | .error e => .error e
            | .ok (newVerb, rng') =>
              match newVerb with
              | .verbWord v =>
                match verbTextInForm v wordForm with
                | .error e => .error e
                | .ok txt =>
                  if v.expectInfinitive then
                    .ok ({ g with
                            sentence := g.sentence ++ [txt]
                            nextPart := some { type := .Word, wordType := some .Verb,
                                               wordForm :=
                                                 some { conjugationType := .Infinitive } } },
                         rng', true)
                  else
                    .ok ({ g with sentence := g.sentence ++ [txt], nextPart := none },
                         rng', false)
              | _ => .error .invalidState

/-- The `while sentenceGenerator.generateNextPart(...)` loop, on fuel.
Exhausted fuel returns the state as is; `runLoop_stable` below shows
that from the initial states of the machine any fuel ≥ 4 gives the same
result, so the bound is never observable. -/
def runLoop (words : Words) (d : List (String × Word)) (wordsToLearn : List String) :
    Nat → SentenceGenerator → List Nat → Except GenError (SentenceGenerator × List Nat)
  | 0, g, rng => .ok (g, rng)
  | fuel + 1, g, rng =>
    match generateNextPart words d wordsToLearn g rng with
    | .error e => .error e
    | .ok (g', rng', cont) =>
      if cont then runLoop words d wordsToLearn fuel g' rng' else .ok (g', rng')

/-- The tail of `generateSentence` after the start-state decision:
run the machine, capitalize the first token, join with spaces.
`sentence[0]` on an empty sentence would raise (unreachable from the
initial states, since the machine appends before first returning
`False`). -/
def generateSentenceFrom (words : Words) (d : List (String × Word))
    (wordsToLearn : List String) (startWithQuestion : Bool) (rng : List Nat) :
    Except GenError String :=
  match runLoop words d wordsToLearn 4 (SentenceGenerator.init startWithQuestion) rng with
  | .error e => .error e
  | .ok (g, _) =>
    match g.sentence with
    | [] => .error .invalidState
    | s0 :: rest => .ok (pyJoin (pyCapitalize s0 :: rest))

/-- `generateSentence`.  `startWithQuestion` is `any([wordTextToWord[t]
.type == WordType.Question for t in wordsToLearn]) or
bool(random.getrandbits(1))`: the comprehension resolves every target
(raising on an unknown one), and the coin is only drawn when no target
is a question word (`or` short-circuits). -/
def generateSentence (words : Words) (d : List (String × Word))
    (wordsToLearn : List String) (rng : List Nat) : Except GenError String :=
  match resolveTargets d wordsToLearn with
  | .error e => .error e
  | .ok resolved =>
    if resolved.any (fun w => w.type == WordType.Question) then
      generateSentenceFrom words d wordsToLearn true rng
    else
      let (c, rng') := draw rng
      generateSentenceFrom words d wordsToLearn (c % 2 == 1) rng'

/-- The number of loop iterations still ahead of a generator state
(`5` marks the `wordType = none` state that the Python `match` would
spin on forever; it is unreachable from the initial states). -/
def partRank : Option NextPart → Nat
  | none => 0
  | some np =>
    match np.type with
    | .VerbQuestion => 1
    | .Word =>
      match np.wordType with
      | none => 5
      | some .Question => 4
      | some .Pronoun => 3
      | some .Verb =>
        match np.wordForm with
        | none => 1
        | some form => if form.conjugationType = ConjugationType.Infinitive then 1 else 2

/-! ## Sample vocabulary (example data of the specification, §8, used by
the witnesses) -/

def verbLyubit : VerbWordData :=
  { forms :=
      { infinitive := "любить"
        conjugations :=
          [{ singular := "люблю", plural := "любим" },
           { singular := "любишь", plural := "любите" },
           { singular := "любит", plural := "любят" }] }
    expectInfinitive := false }

def verbKhotet : VerbWordData :=
  { forms :=
      { infinitive := "хотеть"
        conjugations :=
          [{ singular := "хочу", plural := "хотим" },
           { singular := "хочешь", plural := "хотите" },
           { singular := "хочет", plural := "хотят" }] }
    expectInfinitive := true }

def sampleWords : Words :=
  { questionWords := [.questionWord "Когда"]
    pronouns := [.pronounWord .I, .pronounWord .You]
    verbs := [.verbWord verbKhotet, .verbWord verbLyubit] }

def sampleDict : List (String × Word) := makeWordsByText sampleWords

/-! ## Helper lemmas: the case maps -/

theorem char_toNat_ofNat (n : Nat) (h : n.isValidChar) : (Char.ofNat n).toNat = n := by
  unfold Char.ofNat
  rw [dif_pos h]
  rfl

theorem char_toNat_valid (c : Char) : c.toNat.isValidChar := c.valid

theorem lowerNat_valid {n : Nat} (h : n.isValidChar) : (lowerNat n).isValidChar := by
  unfold lowerNat
  split
  · exact Or.inl (by omega)
  · split
    · exact Or.inl (by omega)
    · split
      · exact Or.inl (by omega)
      · exact h

theorem upperNat_valid {n : Nat} (h : n.isValidChar) : (upperNat n).isValidChar := by
  unfold upperNat
  split
  · exact Or.inl (by omega)
  · split
    · exact Or.inl (by omega)
    · split
      · exact Or.inl (by omega)
      · exact h

theorem lowerNat_lowerNat (n : Nat) : lowerNat (lowerNat n) = lowerNat n := by
  unfold lowerNat
  split_ifs <;> omega

theorem upperNat_upperNat (n : Nat) : upperNat (upperNat n) = upperNat n := by
  unfold upperNat
  split_ifs <;> omega

theorem pyCharLower_toNat (c : Char) : (pyCharLower c).toNat = lowerNat c.toNat :=
  char_toNat_ofNat _ (lowerNat_valid (char_toNat_valid c))

theorem pyCharUpper_toNat (c : Char) : (pyCharUpper c).toNat = upperNat c.toNat :=
  char_toNat_ofNat _ (upperNat_valid (char_toNat_valid c))

theorem pyCharLower_pyCharLower (c : Char) :
    pyCharLower (pyCharLower c) = pyCharLower c := by
  show Char.ofNat (lowerNat (pyCharLower c).toNat) = pyCharLower c
  rw [pyCharLower_toNat, lowerNat_lowerNat]
  rfl

theorem pyCharUpper_pyCharUpper (c : Char) :
    pyCharUpper (pyCharUpper c) = pyCharUpper c := by
  show Char.ofNat (upperNat (pyCharUpper c).toNat) = pyCharUpper c
  rw [pyCharUpper_toNat, upperNat_upperNat]
  rfl

theorem list_map_eq_self {α : Type} {f : α → α} {l : List α} :
    l.map f = l ↔ ∀ a ∈ l, f a = a := by
  induction l with
  | nil => simp
  | cons x xs ih => simp [ih]

theorem pyLower_pyLower (s : String) : pyLower (pyLower s) = pyLower s := by
  show String.mk ((s.data.map pyCharLower).map pyCharLower) = String.mk (s.data.map pyCharLower)
  rw [List.map_map]
  exact congrArg String.mk (List.map_congr_left (fun c _ => pyCharLower_pyCharLower c))

theorem wordText_lower (w : Word) : pyLower (wordText w) = wordText w := by
  unfold wordText
  exact pyLower_pyLower _

theorem verbTextInForm_lower (v : VerbWordData) (form : WordForm) (txt : String)
    (h : verbTextInForm v form = .ok txt) : pyLower txt = txt := by
  unfold verbTextInForm at h
  split at h
  · cases h
    exact pyLower_pyLower _
  · split at h
    · cases h
    · cases h
      exact pyLower_pyLower _

/-! ## Claim C5 and C9: verb rendering -/

/-- C5: `renderVerb` (`verbTextInForm`): for every verb and grammatical
form, if the person of the form is `Infinitive` the result is the
infinitive text of the verb; otherwise the result indexes the
conjugation collection by the person of the form (`First = 0`,
`Second = 1`, `Third = 2`) and selects the singular surface text when
the number of the form is `Singular` and the plural one otherwise; the
returned text is always lower-cased (`pyLower`-invariant). -/
theorem claim_C5_renderVerb (verb : VerbWordData) (form : WordForm) :
    (ConjugationType.value .First = 0 ∧ ConjugationType.value .Second = 1 ∧
      ConjugationType.value .Third = 2) ∧
    (form.conjugationType = ConjugationType.Infinitive →
      verbTextInForm verb form = .ok (pyLower verb.forms.infinitive)) ∧
    (form.conjugationType ≠ ConjugationType.Infinitive →
      ∀ conjugation,
        verb.forms.conjugations.get? form.conjugationType.value = some conjugation →
        verbTextInForm verb form =
          .ok (pyLower (if form.singleOrPlural = some SingleOrPlural.Singular
            then conjugation.singular else conjugation.plural))) ∧
    (∀ txt, verbTextInForm verb form = .ok txt → pyLower txt = txt) := by
  refine ⟨⟨rfl, rfl, rfl⟩, ?_, ?_, fun txt h => verbTextInForm_lower verb form txt h⟩
  · intro h
    unfold verbTextInForm
    rw [h]
  · intro hne conjugation hget
    obtain ⟨ct, sp⟩ := form
    cases ct
    case Infinitive => exact absurd rfl hne
    all_goals
      simp only [verbTextInForm] at hget ⊢
      rw [hget]

/-- C5 witness: on the example verb `любить` with the First/Singular
form the rendered text is `люблю`. -/
theorem claim_C5_renderVerb_witness :
    verbTextInForm verbLyubit
      { conjugationType := ConjugationType.First,
        singleOrPlural := some SingleOrPlural.Singular } = .ok "люблю" := by
  have h := (claim_C5_renderVerb verbLyubit
    { conjugationType := ConjugationType.First,
      singleOrPlural := some SingleOrPlural.Singular }).2.2.1
  rw [h (by decide) { singular := "люблю", plural := "любим" } rfl]
  rfl

/-- C9: for every verb whose conjugation collection lacks an entry at
the index required by a non-`Infinitive` form, `renderVerb`
(`verbTextInForm`) fails with the `MalformedConjugationTable` condition
rather than returning a string. -/
theorem claim_C9_malformedConjugationTable (verb : VerbWordData) (form : WordForm)
    (hne : form.conjugationType ≠ ConjugationType.Infinitive)
    (hmiss : verb.forms.conjugations.get? form.conjugationType.value = none) :
    verbTextInForm verb form = .error .malformedConjugationTable := by
  obtain ⟨ct, sp⟩ := form
  cases ct
  case Infinitive => exact absurd rfl hne
  all_goals
    simp only [verbTextInForm] at hmiss ⊢
    rw [hmiss]

/-- C9 witness: a verb with an empty conjugation table fails to render
the Third/Singular form. -/
theorem claim_C9_malformedConjugationTable_witness :
    verbTextInForm { forms := { infinitive := "мочь", conjugations := [] },
                     expectInfinitive := false }
      { conjugationType := ConjugationType.Third,
        singleOrPlural := some SingleOrPlural.Singular } =
      .error .malformedConjugationTable :=
  claim_C9_malformedConjugationTable _ _ (by decide) rfl

/-! ## Helper lemmas: the selection policy -/

theorem randomWordFromList_ok {l : List Word} (h : l ≠ []) (r : Nat) :
    randomWordFromList l r =
      .ok (l.get ⟨r % l.length, Nat.mod_lt r (List.length_pos.mpr h)⟩) := by
  unfold randomWordFromList
  rw [dif_neg (fun h0 => h (List.length_eq_zero.mp h0))]

theorem newOrAnyWordR_eq (wordList : List Word) (d : List (String × Word))
    (wordsToLearn : List String) (rng : List Nat) (w0 : Word) (resolved : List Word)
    (hhead : wordList.head? = some w0)
    (hres : resolveTargets d wordsToLearn = .ok resolved) :
    newOrAnyWordR wordList d wordsToLearn rng =
      (if (resolved.filter (fun w => w.type == w0.type)).length > 0 then
        (randomWordFromList (resolved.filter (fun w => w.type == w0.type)) (draw rng).1).map
          (fun w => (w, (draw rng).2))
      else
        (randomWordFromList wordList (draw rng).1).map (fun w => (w, (draw rng).2))) := by
  unfold newOrAnyWordR
  rw [hhead, hres]

theorem newOrAnyVerbR_eq (verbList : List Word) (d : List (String × Word))
    (wordsToLearn : List String) (rng : List Nat) (resolved : List Word)
    (hres : resolveTargets d wordsToLearn = .ok resolved) :
    newOrAnyVerbR verbList d wordsToLearn rng =
      (if (resolved.filter (fun w => w.type == WordType.Verb)).length > 0 then
        if (resolved.filter (fun w => w.type == WordType.Verb)).any
            (fun verb => verb.expectInfinitive) then
          (randomWordFromList (resolved.filter (fun w => w.type == WordType.Verb))
              (draw rng).1).map (fun w => (w, (draw rng).2))
        else
          if (draw rng).1 % 2 == 1 then
            (randomWordFromList (resolved.filter (fun w => w.type == WordType.Verb))
                (draw (draw rng).2).1).map (fun w => (w, (draw (draw rng).2).2))
          else
            (randomWordFromList (verbList.filter (fun verb => verb.expectInfinitive))
                (draw (draw rng).2).1).map (fun w => (w, (draw (draw rng).2).2))
      else
        (randomWordFromList verbList (draw rng).1).map (fun w => (w, (draw rng).2))) := by
  unfold newOrAnyVerbR
  rw [hres]

theorem newOrAnyNotExpectsInfinitiveVerbR_eq (verbList : List Word)
    (d : List (String × Word)) (wordsToLearn : List String) (rng : List Nat)
    (resolved : List Word) (hres : resolveTargets d wordsToLearn = .ok resolved) :
    newOrAnyNotExpectsInfinitiveVerbR verbList d wordsToLearn rng =
      (if (resolved.filter (fun w => w.type == WordType.Verb && !w.expectInfinitive)).length
          > 0 then
        (randomWordFromList
            (resolved.filter (fun w => w.type == WordType.Verb && !w.expectInfinitive))
            (draw rng).1).map (fun w => (w, (draw rng).2))
      else
        (randomWordFromList (verbList.filter (fun verb => !verb.expectInfinitive))
            (draw rng).1).map (fun w => (w, (draw rng).2))) := by
  unfold newOrAnyNotExpectsInfinitiveVerbR
  rw [hres]

/-! ## Claims C4, C1, C10: the two-tier selection policy -/

/-- C4: `pickByType` (`newOrAnyWord`): for every non-empty full
collection (head `w0`, whose `type` is the wanted type) and resolvable
learning-target list, if the sub-list of targets of the wanted type is
non-empty the result is a uniformly random element of it (the next
`randrange` draw indexes it), otherwise the result is a uniformly
random element of the full collection; in particular the empty-targeted
case still succeeds, never failing over that emptiness alone. -/
theorem claim_C4_pickByType (wordList : List Word) (d : List (String × Word))
    (wordsToLearn : List String) (rng : List Nat) (w0 : Word) (resolved : List Word)
    (hhead : wordList.head? = some w0)
    (hres : resolveTargets d wordsToLearn = .ok resolved) :
    (resolved.filter (fun w => w.type == w0.type) ≠ [] →
      newOrAnyWordR wordList d wordsToLearn rng =
        (randomWordFromList (resolved.filter (fun w => w.type == w0.type)) (draw rng).1).map
          (fun w => (w, (draw rng).2))) ∧
    (resolved.filter (fun w => w.type == w0.type) = [] →
      newOrAnyWordR wordList d wordsToLearn rng =
        (randomWordFromList wordList (draw rng).1).map (fun w => (w, (draw rng).2)) ∧
      ∃ w, newOrAnyWordR wordList d wordsToLearn rng = .ok (w, (draw rng).2)) := by
  have heq := newOrAnyWordR_eq wordList d wordsToLearn rng w0 resolved hhead hres
  constructor
  · intro hne
    rw [heq, if_pos (List.length_pos.mpr hne)]
  · intro hemp
    have hnil : wordList ≠ [] := fun h0 => by rw [h0] at hhead; cases hhead
    have h2 : newOrAnyWordR wordList d wordsToLearn rng =
        (randomWordFromList wordList (draw rng).1).map (fun w => (w, (draw rng).2)) := by
      rw [heq, hemp]
      simp
    refine ⟨h2, ?_⟩
    rw [h2, randomWordFromList_ok hnil]
    exact ⟨_, rfl⟩

/-- C4 witness: with the sample vocabulary, target list `["я"]` and
raw draw `0`, the pronoun pick returns the targeted pronoun `Я`; with
no targets it falls back to the full pronoun list. -/
theorem claim_C4_pickByType_witness :
    (newOrAnyWordR sampleWords.pronouns sampleDict ["я"] [0] =
      .ok (Word.pronounWord .I, [])) ∧
    (∃ w, newOrAnyWordR sampleWords.pronouns sampleDict [] [0] = .ok (w, [])) := by
  constructor
  · have h := (claim_C4_pickByType sampleWords.pronouns sampleDict ["я"] [0]
      (Word.pronounWord .I) [Word.pronounWord .I] rfl rfl).1 (by decide)
    rw [h]
    rfl
  · exact (claim_C4_pickByType sampleWords.pronouns sampleDict [] [0]
      (Word.pronounWord .I) [] rfl rfl).2 rfl |>.2

/-- C1: `pickVerb` (`newOrAnyVerb`): with a resolvable target list,
when the targeted verbs (type `Verb`) are non-empty: if some targeted
verb expects an infinitive, or the coin flip (the next raw draw, odd =
true) is true, the result is a uniformly random element of the targeted
verbs; otherwise it is a uniformly random element of the verbs of the
full list with `expectInfinitive = true`.  When the targeted set is
empty the result is a uniformly random element of the full verb list,
with no infinitive-governance constraint. -/
theorem claim_C1_pickVerb (verbList : List Word) (d : List (String × Word))
    (wordsToLearn : List String) (rng : List Nat) (resolved : List Word)
    (hres : resolveTargets d wordsToLearn = .ok resolved) :
    (resolved.filter (fun w => w.type == WordType.Verb) ≠ [] →
      ((resolved.filter (fun w => w.type == WordType.Verb)).any
          (fun verb => verb.expectInfinitive) = true →
        newOrAnyVerbR verbList d wordsToLearn rng =
          (randomWordFromList (resolved.filter (fun w => w.type == WordType.Verb))
              (draw rng).1).map (fun w => (w, (draw rng).2))) ∧
      ((resolved.filter (fun w => w.type == WordType.Verb)).any
          (fun verb => verb.expectInfinitive) = false →
        ((draw rng).1 % 2 = 1 →
          newOrAnyVerbR verbList d wordsToLearn rng =
            (randomWordFromList (resolved.filter (fun w => w.type == WordType.Verb))
                (draw (draw rng).2).1).map (fun w => (w, (draw (draw rng).2).2))) ∧
        ((draw rng).1 % 2 ≠ 1 →
          newOrAnyVerbR verbList d wordsToLearn rng =
            (randomWordFromList (verbList.filter (fun verb => verb.expectInfinitive))
                (draw (draw rng).2).1).map (fun w => (w, (draw (draw rng).2).2))))) ∧
    (resolved.filter (fun w => w.type == WordType.Verb) = [] →
      newOrAnyVerbR verbList d wordsToLearn rng =
        (randomWordFromList verbList (draw rng).1).map (fun w => (w, (draw rng).2))) := by
  have heq := newOrAnyVerbR_eq verbList d wordsToLearn rng resolved hres
  constructor
  · intro hne
    have hpos := List.length_pos.mpr hne
    refine ⟨fun hany => ?_, fun hany => ⟨fun hcoin => ?_, fun hcoin => ?_⟩⟩
    · rw [heq, if_pos hpos, if_pos hany]
    · rw [heq, if_pos hpos, hany]
      simp only [Bool.false_eq_true, if_false]
      rw [if_pos (by simpa using hcoin)]
    · rw [heq, if_pos hpos, hany]
      simp only [Bool.false_eq_true, if_false]
      rw [if_neg (by simpa using hcoin)]
  · intro hemp
    rw [heq, hemp]
    simp

/-- C1 witness: with the sample vocabulary and target `["хотеть"]`
(an infinitive-governing verb) the pick returns that targeted verb with
no coin consumed; with target `["любить"]` and an even coin draw the
pick falls back to the infinitive-governing verbs of the full list. -/
theorem claim_C1_pickVerb_witness :
    (newOrAnyVerbR sampleWords.verbs sampleDict ["хотеть"] [1] =
      .ok (Word.verbWord verbKhotet, [])) ∧
    (newOrAnyVerbR sampleWords.verbs sampleDict ["любить"] [0, 0] =
      .ok (Word.verbWord verbKhotet, [])) := by
  constructor
  · have h := ((claim_C1_pickVerb sampleWords.verbs sampleDict ["хотеть"] [1]
      [Word.verbWord verbKhotet] rfl).1 (by decide)).1 (by decide)
    rw [h]
    rfl
  · have h := (((claim_C1_pickVerb sampleWords.verbs sampleDict ["любить"] [0, 0]
      [Word.verbWord verbLyubit] rfl).1 (by decide)).2 (by decide)).2 (by decide)
    rw [h]
    rfl

/-- C10: `newOrAnyWord` reads `wordList[0].type` first, so with an
empty full collection the call fails immediately — for every dictionary
and target list, targets of the needed type included — while a
non-empty full collection together with resolvable targets guarantees
the index access and the subsequent uniform draw succeed. -/
theorem claim_C10_headType (d : List (String × Word)) (wordsToLearn : List String)
    (rng : List Nat) :
    (newOrAnyWordR [] d wordsToLearn rng = .error .emptyVocabulary) ∧
    (∀ (wordList : List Word) (resolved : List Word), wordList ≠ [] →
      resolveTargets d wordsToLearn = .ok resolved →
      ∃ w, newOrAnyWordR wordList d wordsToLearn rng = .ok (w, (draw rng).2)) := by
  constructor
  · rfl
  · intro wordList resolved hnil hres
    obtain ⟨w0, hhead⟩ : ∃ w0, wordList.head? = some w0 := by
      cases wordList with
      | nil => exact absurd rfl hnil
      | cons a l => exact ⟨a, rfl⟩
    rw [newOrAnyWordR_eq wordList d wordsToLearn rng w0 resolved hhead hres]
    by_cases hf : resolved.filter (fun w => w.type == w0.type) = []
    · rw [hf]
      simp only [List.length_nil, gt_iff_lt, Nat.lt_irrefl, if_false]
      rw [randomWordFromList_ok hnil]
      exact ⟨_, rfl⟩
    · rw [if_pos (List.length_pos.mpr hf), randomWordFromList_ok hf]
      exact ⟨_, rfl⟩

/-- C10 witness: the empty pronoun list fails even though the target
list names a pronoun, and the sample pronoun list succeeds. -/
theorem claim_C10_headType_witness :
    (newOrAnyWordR [] sampleDict ["я"] [0] = .error .emptyVocabulary) ∧
    (∃ w, newOrAnyWordR sampleWords.pronouns sampleDict ["я"] [0] = .ok (w, [])) := by
  refine ⟨(claim_C10_headType sampleDict ["я"] [0]).1, ?_⟩
  exact (claim_C10_headType sampleDict ["я"] [0]).2 sampleWords.pronouns
    [Word.pronounWord .I] (by decide) rfl

/-! ## Claim C7: empty candidate collections -/

/-- C7: every selection step whose required candidate collection is
empty fails with the `EmptyVocabulary` condition instead of returning a
selection: the underlying draw on an empty collection fails, a `Pronoun`
step over an empty pronoun vocabulary fails, and an infinitive-complement
step with no verb of `expectInfinitive = false` (targeted or in the
full list) fails. -/
theorem claim_C7_emptyVocabulary :
    (∀ r : Nat, randomWordFromList [] r = .error .emptyVocabulary) ∧
    (∀ (words : Words) (d : List (String × Word)) (wordsToLearn : List String)
        (b : Bool) (s : List String) (wf : Option WordForm) (vq : Option VerbQuestion)
        (rng : List Nat), words.pronouns = [] →
      generateNextPart words d wordsToLearn
        { startWithQuestion := b, sentence := s,
          nextPart := some { type := .Word, wordType := some .Pronoun,
                             wordForm := wf, verbQuestion := vq } } rng =
        .error .emptyVocabulary) ∧
    (∀ (words : Words) (d : List (String × Word)) (wordsToLearn : List String)
        (b : Bool) (s : List String) (form : WordForm) (vq : Option VerbQuestion)
        (rng : List Nat) (resolved : List Word),
      form.conjugationType = ConjugationType.Infinitive →
      resolveTargets d wordsToLearn = .ok resolved →
      resolved.filter (fun w => w.type == WordType.Verb && !w.expectInfinitive) = [] →
      words.verbs.filter (fun verb => !verb.expectInfinitive) = [] →
      generateNextPart words d wordsToLearn
        { startWithQuestion := b, sentence := s,
          nextPart := some { type := .Word, wordType := some .Verb,
                             wordForm := some form, verbQuestion := vq } } rng =
        .error .emptyVocabulary) := by
  refine ⟨fun r => rfl, ?_, ?_⟩
  · intro words d wordsToLearn b s wf vq rng hpron
    simp only [generateNextPart]
    rw [hpron]
    rfl
  · intro words d wordsToLearn b s form vq rng resolved hform hres hf1 hf2
    simp only [generateNextPart]
    rw [if_pos hform,
      newOrAnyNotExpectsInfinitiveVerbR_eq words.verbs d wordsToLearn rng resolved hres,
      hf1, hf2]
    rfl

/-- C7 witness: a vocabulary with no pronouns fails the pronoun step,
and one whose only verb governs an infinitive fails the
infinitive-complement step. -/
theorem claim_C7_emptyVocabulary_witness :
    (randomWordFromList [] 0 = .error .emptyVocabulary) ∧
    (generateNextPart { pronouns := [] } sampleDict [] 
        { startWithQuestion := false, sentence := [],
          nextPart := some { type := .Word, wordType := some .Pronoun } } [0] =
      .error .emptyVocabulary) ∧
    (generateNextPart { verbs := [.verbWord verbKhotet] } sampleDict []
        { startWithQuestion := false, sentence := ["я"],
          nextPart := some { type := .Word, wordType := some .Verb,
                             wordForm := some { conjugationType := .Infinitive } } } [0] =
      .error .emptyVocabulary) :=
  ⟨claim_C7_emptyVocabulary.1 0,
   claim_C7_emptyVocabulary.2.1 { pronouns := [] } sampleDict [] false [] none none [0] rfl,
   claim_C7_emptyVocabulary.2.2 { verbs := [.verbWord verbKhotet] } sampleDict [] false
     ["я"] { conjugationType := .Infinitive } none [0] [] rfl rfl rfl rfl⟩

/-! ## Helper lemmas: one step of the machine, by state shape -/

theorem gnp_none (words : Words) (d : List (String × Word)) (wl : List String)
    (b : Bool) (s : List String) (rng : List Nat) :
    generateNextPart words d wl { startWithQuestion := b, sentence := s, nextPart := none }
      rng = .error .invalidState := rfl

theorem gnp_verbQuestion (words : Words) (d : List (String × Word)) (wl : List String)
    (b : Bool) (s : List String) (wt : Option WordType) (wf : Option WordForm)
    (vq : Option VerbQuestion) (rng : List Nat) :
    generateNextPart words d wl
      { startWithQuestion := b, sentence := s,
        nextPart := some { type := .VerbQuestion, wordType := wt, wordForm := wf,
                           verbQuestion := vq } } rng =
      .ok ({ startWithQuestion := b, sentence := s, nextPart := none }, rng, false) := rfl

theorem gnp_word_noType (words : Words) (d : List (String × Word)) (wl : List String)
    (b : Bool) (s : List String) (wf : Option WordForm) (vq : Option VerbQuestion)
    (rng : List Nat) :
    generateNextPart words d wl
      { startWithQuestion := b, sentence := s,
        nextPart := some { type := .Word, wordType := none, wordForm := wf,
                           verbQuestion := vq } } rng =
      .ok ({ startWithQuestion := b, sentence := s,
             nextPart := some { type := .Word, wordType := none, wordForm := wf,
                                verbQuestion := vq } }, rng, true) := rfl

theorem gnp_question (words : Words) (d : List (String × Word)) (wl : List String)
    (b : Bool) (s : List String) (wf : Option WordForm) (vq : Option VerbQuestion)
    (rng : List Nat) :
    generateNextPart words d wl
      { startWithQuestion := b, sentence := s,
        nextPart := some { type := .Word, wordType := some .Question, wordForm := wf,
                           verbQuestion := vq } } rng =
      (match newOrAnyWordR words.questionWords d wl rng with
       | .error e => .error e
       | .ok (w, rng') =>
         .ok ({ startWithQuestion := b, sentence := s ++ [wordText w],
                nextPart := some { type := .Word, wordType := some .Pronoun } },
              rng', true)) := rfl

theorem gnp_pronoun (words : Words) (d : List (String × Word)) (wl : List String)
    (b : Bool) (s : List String) (wf : Option WordForm) (vq : Option VerbQuestion)
    (rng : List Nat) :
    generateNextPart words d wl
      { startWithQuestion := b, sentence := s,
        nextPart := some { type := .Word, wordType := some .Pronoun, wordForm := wf,
                           verbQuestion := vq } } rng =
      (match newOrAnyWordR words.pronouns d wl rng with
       | .error e => .error e
       | .ok (pronoun, rng') =>
         match pronounFormOfWord pronoun with
         | none => .error .invalidState
         | some form =>
           .ok ({ startWithQuestion := b, sentence := s ++ [wordText pronoun],
                  nextPart := some { type := .Word, wordType := some .Verb,
                                     wordForm := some form } },
                rng', true)) := rfl

theorem gnp_verb_noForm (words : Words) (d : List (String × Word)) (wl : List String)
    (b : Bool) (s : List String) (vq : Option VerbQuestion) (rng : List Nat) :
    generateNextPart words d wl
      { startWithQuestion := b, sentence := s,
        nextPart := some { type := .Word, wordType := some .Verb, wordForm := none,
                           verbQuestion := vq } } rng = .error .invalidState := rfl

theorem gnp_verb (words : Words) (d : List (String × Word)) (wl : List String)
    (b : Bool) (s : List String) (form : WordForm) (vq : Option VerbQuestion)
    (rng : List Nat) :
    generateNextPart words d wl
      { startWithQuestion := b, sentence := s,
        nextPart := some { type := .Word, wordType := some .Verb, wordForm := some form,
                           verbQuestion := vq } } rng =
      (if form.conjugationType = ConjugationType.Infinitive then
        match newOrAnyNotExpectsInfinitiveVerbR words.verbs d wl rng with
        | .error e => .error e
        | .ok (w, rng') =>
          .ok ({ startWithQuestion := b, sentence := s ++ [wordText w], nextPart := none },
               rng', false)
      else
        match newOrAnyVerbR words.verbs d wl rng with
        | .error e => .error e
        | .ok (newVerb, rng') =>
          match newVerb with
          | .verbWord v =>
            (match verbTextInForm v form with
             | .error e => .error e
             | .ok txt =>
               if v.expectInfinitive then
                 .ok ({ startWithQuestion := b, sentence := s ++ [txt],
                        nextPart := some { type := .Word, wordType := some .Verb,
                                           wordForm :=
                                             some { conjugationType := .Infinitive } } },
                      rng', true)
               else
                 .ok ({ startWithQuestion := b, sentence := s ++ [txt], nextPart := none },
                      rng', false))
          | .questionWord _ => .error .invalidState
          | .pronounWord _ => .error .invalidState) := by
  simp only [generateNextPart]
  split
  · cases h1 : newOrAnyNotExpectsInfinitiveVerbR words.verbs d wl rng with
    | error e => rfl
    | ok p =>
      obtain ⟨w, rng2⟩ := p
      rfl
  · cases h2 : newOrAnyVerbR words.verbs d wl rng with
    | error e => rfl
    | ok p =>
      obtain ⟨newVerb, rng2⟩ := p
      cases newVerb with
      | questionWord t => rfl
      | pronounWord n => rfl
      | verbWord v =>
        cases h3 : verbTextInForm v form with
        | error e => rfl
        | ok txt => rfl

/-! ## Helper lemmas: rank bookkeeping and the loop -/

theorem pronounFormOfWord_notInf {w : Word} {form : WordForm}
    (h : pronounFormOfWord w = some form) :
    form.conjugationType ≠ ConjugationType.Infinitive := by
  cases w with
  | questionWord t => cases h
  | verbWord v => cases h
  | pronounWord n =>
    cases n <;> (injection h with h1; subst h1; decide)

theorem partRank_zero {onp : Option NextPart} (h : partRank onp = 0) : onp = none := by
  cases onp with
  | none => rfl
  | some np =>
    obtain ⟨ty, wt, wf, vq⟩ := np
    exfalso
    cases ty with
    | VerbQuestion => simp [partRank] at h
    | Word =>
      cases wt with
      | none => simp [partRank] at h
      | some w =>
        cases w with
        | Question => simp [partRank] at h
        | Pronoun => simp [partRank] at h
        | Verb =>
          cases wf with
          | none => simp [partRank] at h
          | some form =>
            simp only [partRank] at h
            split at h <;> omega

theorem partRank_pos {onp : Option NextPart} (h : onp.isSome = true) :
    1 ≤ partRank onp := by
  cases onp with
  | none => cases h
  | some np =>
    obtain ⟨ty, wt, wf, vq⟩ := np
    cases ty with
    | VerbQuestion => simp [partRank]
    | Word =>
      cases wt with
      | none => simp [partRank]
      | some w =>
        cases w with
        | Question => simp [partRank]
        | Pronoun => simp [partRank]
        | Verb =>
          cases wf with
          | none => simp [partRank]
          | some form =>
            simp only [partRank]
            split <;> omega

/-- One successful machine step strictly decreases the rank, appends at
most one token, appends only `pyLower`-invariant tokens, and reports
continuation exactly when a next part remains. -/
theorem generateNextPart_step (words : Words) (d : List (String × Word))
    (wl : List String) (g : SentenceGenerator) (rng : List Nat)
    (hrank : partRank g.nextPart ≤ 4)
    (g' : SentenceGenerator) (rng' : List Nat) (cont : Bool)
    (h : generateNextPart words d wl g rng = .ok (g', rng', cont)) :
    partRank g'.nextPart < partRank g.nextPart ∧
    cont = g'.nextPart.isSome ∧
    ∃ t : List String, g'.sentence = g.sentence ++ t ∧ t.length ≤ 1 ∧
      ∀ tok ∈ t, pyLower tok = tok := by
  obtain ⟨b, s, onp⟩ := g
  cases onp with
  | none => rw [gnp_none] at h; cases h
  | some np =>
    obtain ⟨ty, wt, wf, vq⟩ := np
    cases ty with
    | VerbQuestion =>
      rw [gnp_verbQuestion] at h
      simp only [Except.ok.injEq, Prod.mk.injEq] at h
      obtain ⟨hg, hr, hc⟩ := h
      subst hg; subst hc
      refine ⟨by simp [partRank], rfl, [], by simp, by simp, by simp⟩
    | Word =>
      cases wt with
      | none => exact absurd hrank (by simp [partRank])
      | some w =>
        cases w with
        | Question =>
          rw [gnp_question] at h
          cases hw : newOrAnyWordR words.questionWords d wl rng with
          | error e => rw [hw] at h; cases h
          | ok p =>
            obtain ⟨word, rng2⟩ := p
            rw [hw] at h
            simp only [Except.ok.injEq, Prod.mk.injEq] at h
            obtain ⟨hg, hr, hc⟩ := h
            subst hg; subst hc
            exact ⟨by simp [partRank], rfl, [wordText word], rfl, by simp,
              by simp [wordText_lower]⟩
        | Pronoun =>
          rw [gnp_pronoun] at h
          split at h
          · cases h
          · rename_i pronoun rng2 hw
            split at h
            · cases h
            · rename_i form hpf
              simp only [Except.ok.injEq, Prod.mk.injEq] at h
              obtain ⟨hg, hr, hc⟩ := h
              subst hg; subst hc
              have hni := pronounFormOfWord_notInf hpf
              refine ⟨?_, rfl, [wordText pronoun], rfl, by simp,
                by simp [wordText_lower]⟩
              simp only [partRank]
              rw [if_neg hni]
              omega
        | Verb =>
          cases wf with
          | none => rw [gnp_verb_noForm] at h; cases h
          | some form =>
            rw [gnp_verb] at h
            by_cases hform : form.conjugationType = ConjugationType.Infinitive
            · rw [if_pos hform] at h
              cases hw : newOrAnyNotExpectsInfinitiveVerbR words.verbs d wl rng with
              | error e => rw [hw] at h; cases h
              | ok p =>
                obtain ⟨word, rng2⟩ := p
                rw [hw] at h
                simp only [Except.ok.injEq, Prod.mk.injEq] at h
                obtain ⟨hg, hr, hc⟩ := h
                subst hg; subst hc
                refine ⟨?_, rfl, [wordText word], rfl, by simp,
                  by simp [wordText_lower]⟩
                simp only [partRank]
                rw [if_pos hform]
                omega
            · rw [if_neg hform] at h
              split at h
              · cases h
              · rename_i newVerb rng2 hw
                split at h
                · rename_i v
                  split at h
                  · cases h
                  · rename_i txt hvt
                    cases hei : v.expectInfinitive with
                    | true =>
                      rw [hei] at h
                      simp only [if_true, Except.ok.injEq, Prod.mk.injEq] at h
                      obtain ⟨hg, hr, hc⟩ := h
                      subst hg; subst hc
                      refine ⟨?_, rfl, [txt], rfl, by simp,
                        by simp [verbTextInForm_lower v form txt hvt]⟩
                      simp only [partRank]
                      rw [if_neg hform]
                      norm_num
                    | false =>
                      rw [hei] at h
                      simp only [Bool.false_eq_true, if_false, Except.ok.injEq,
                        Prod.mk.injEq] at h
                      obtain ⟨hg, hr, hc⟩ := h
                      subst hg; subst hc
                      refine ⟨?_, rfl, [txt], rfl, by simp,
                        by simp [verbTextInForm_lower v form txt hvt]⟩
                      simp only [partRank]
                      rw [if_neg hform]
                      omega
                · cases h
                · cases h

/-- A run of the loop that returns normally ends with no next part and
has appended at most `partRank` many `pyLower`-invariant tokens. -/
theorem runLoop_sound (words : Words) (d : List (String × Word)) (wl : List String) :
    ∀ (fuel : Nat) (g : SentenceGenerator) (rng : List Nat),
    partRank g.nextPart ≤ 4 → partRank g.nextPart ≤ fuel →
    ∀ gf rngf, runLoop words d wl fuel g rng = .ok (gf, rngf) →
      gf.nextPart = none ∧
      ∃ t : List String, gf.sentence = g.sentence ++ t ∧
        t.length ≤ partRank g.nextPart ∧ ∀ tok ∈ t, pyLower tok = tok := by
  intro fuel
  induction fuel with
  | zero =>
    intro g rng h4 hf gf rngf hrun
    simp only [runLoop, Except.ok.injEq, Prod.mk.injEq] at hrun
    obtain ⟨hg, hr⟩ := hrun
    subst hg
    refine ⟨partRank_zero (by omega), [], by simp, by simp, by simp⟩
  | succ n ih =>
    intro g rng h4 hf gf rngf hrun
    simp only [runLoop] at hrun
    split at hrun
    · cases hrun
    · rename_i g1 rng1 cont hstep
      obtain ⟨hlt, hcont, t1, ht1, hlen1, hlow1⟩ :=
        generateNextPart_step words d wl g rng h4 g1 rng1 cont hstep
      cases cont with
      | false =>
        simp only [Bool.false_eq_true, if_false, Except.ok.injEq, Prod.mk.injEq] at hrun
        obtain ⟨hg, hr⟩ := hrun
        subst hg
        refine ⟨Option.not_isSome_iff_eq_none.mp (fun hs => by rw [hs] at hcont; cases hcont),
          t1, ht1, by omega, hlow1⟩
      | true =>
        rw [if_pos rfl] at hrun
        have hrank1 : partRank g1.nextPart ≤ 4 := by omega
        have hfuel1 : partRank g1.nextPart ≤ n := by omega
        obtain ⟨hnone, t2, ht2, hlen2, hlow2⟩ := ih g1 rng1 hrank1 hfuel1 gf rngf hrun
        refine ⟨hnone, t1 ++ t2, by rw [ht2, ht1, List.append_assoc], ?_, ?_⟩
        · rw [List.length_append]
          omega
        · intro tok htok
          rcases List.mem_append.mp htok with hm | hm
          · exact hlow1 tok hm
          · exact hlow2 tok hm

/-- With at least `partRank` much fuel (and a pending part), the result
of the loop no longer depends on the fuel: the Python `while` loop has
terminated by then. -/
theorem runLoop_stable (words : Words) (d : List (String × Word)) (wl : List String) :
    ∀ (f1 : Nat) (g : SentenceGenerator) (rng : List Nat) (f2 : Nat),
    partRank g.nextPart ≤ 4 → 1 ≤ partRank g.nextPart →
    partRank g.nextPart ≤ f1 → partRank g.nextPart ≤ f2 →
    runLoop words d wl f1 g rng = runLoop words d wl f2 g rng := by
  intro f1
  induction f1 with
  | zero =>
    intro g rng f2 _ h1 hf1 _
    omega
  | succ n ih =>
    intro g rng f2 h4 h1 hf1 hf2
    obtain ⟨m, rfl⟩ : ∃ m, f2 = m + 1 := ⟨f2 - 1, by omega⟩
    simp only [runLoop]
    cases hstep : generateNextPart words d wl g rng with
    | error e => rfl
    | ok res =>
      obtain ⟨g1, rng1, cont⟩ := res
      obtain ⟨hlt, hcont, _⟩ := generateNextPart_step words d wl g rng h4 g1 rng1 cont hstep
      cases cont with
      | false => rfl
      | true =>
        simp only [if_true]
        exact ih g1 rng1 m (by omega) (partRank_pos hcont.symm) (by omega) (by omega)

/-! ## Helper lemmas: membership of random picks and character shapes -/

theorem randomWordFromList_mem {l : List Word} {r : Nat} {w : Word}
    (h : randomWordFromList l r = .ok w) : w ∈ l := by
  unfold randomWordFromList at h
  split at h
  · cases h
  · injection h with h1
    rw [← h1]
    exact l.get_mem _ _

theorem newOrAnyNotExpectsInfinitiveVerbR_flag {verbList : List Word}
    {d : List (String × Word)} {wl : List String} {rng : List Nat} {w : Word}
    {rng₂ : List Nat}
    (h : newOrAnyNotExpectsInfinitiveVerbR verbList d wl rng = .ok (w, rng₂)) :
    w.expectInfinitive = false := by
  cases hres : resolveTargets d wl with
  | error e => simp [newOrAnyNotExpectsInfinitiveVerbR, hres] at h
  | ok resolved =>
    rw [newOrAnyNotExpectsInfinitiveVerbR_eq verbList d wl rng resolved hres] at h
    split at h
    · cases hrw : randomWordFromList
          (resolved.filter (fun w => w.type == WordType.Verb && !w.expectInfinitive))
          (draw rng).1 with
      | error e => rw [hrw] at h; simp [Except.map] at h
      | ok w1 =>
        rw [hrw] at h
        simp only [Except.map, Except.ok.injEq, Prod.mk.injEq] at h
        obtain ⟨hw, _⟩ := h
        subst hw
        have hmem := randomWordFromList_mem hrw
        have := (List.mem_filter.mp hmem).2
        simp only [Bool.and_eq_true, Bool.not_eq_true'] at this
        exact this.2
    · cases hrw : randomWordFromList
          (verbList.filter (fun verb => !verb.expectInfinitive)) (draw rng).1 with
      | error e => rw [hrw] at h; simp [Except.map] at h
      | ok w1 =>
        rw [hrw] at h
        simp only [Except.map, Except.ok.injEq, Prod.mk.injEq] at h
        obtain ⟨hw, _⟩ := h
        subst hw
        have hmem := randomWordFromList_mem hrw
        have := (List.mem_filter.mp hmem).2
        simp only [Bool.not_eq_true'] at this
        exact this

theorem lowerInv_chars {s : String} (h : pyLower s = s) :
    ∀ c ∈ s.data, pyCharLower c = c := by
  have hd : s.data.map pyCharLower = s.data := congrArg String.data h
  exact list_map_eq_self.mp hd

theorem pyJoin_chars : ∀ (l : List String), (∀ t ∈ l, pyLower t = t) →
    ∀ c ∈ (pyJoin l).data, pyCharLower c = c := by
  intro l
  induction l with
  | nil =>
    intro _ c hc
    simp [pyJoin] at hc
  | cons s rest ih =>
    intro hl c hc
    cases rest with
    | nil => exact lowerInv_chars (hl s (by simp)) c hc
    | cons s2 r2 =>
      have hc' : c ∈ s.data ++ (' ' :: (pyJoin (s2 :: r2)).data) := by
        simpa [pyJoin, String.data_append, List.append_assoc,
          show (" " : String).data = [' '] from rfl] using hc
      rcases List.mem_append.mp hc' with hm | hm
      · exact lowerInv_chars (hl s (by simp)) c hm
      · cases hm with
        | head => decide
        | tail _ hm2 => exact ih (fun t ht => hl t (by simp [ht])) c hm2

/-- Characters of a capitalized-then-joined token list: the head code
point is fixed by upper-casing, every later one is fixed by
lower-casing. -/
theorem capJoin_chars (t0 : String) (rest : List String)
    (hr : ∀ t ∈ rest, pyLower t = t) :
    (∀ c, (pyJoin (pyCapitalize t0 :: rest)).data.head? = some c → pyCharUpper c = c) ∧
    (∀ c ∈ (pyJoin (pyCapitalize t0 :: rest)).data.tail, pyCharLower c = c) := by
  have hjoin := pyJoin_chars rest hr
  cases rest with
  | nil =>
    cases ht0 : t0.data with
    | nil =>
      have hcap : pyCapitalize t0 = t0 := by unfold pyCapitalize; rw [ht0]
      constructor
      · intro c hc
        rw [show pyJoin [pyCapitalize t0] = pyCapitalize t0 from rfl, hcap, ht0] at hc
        cases hc
      · intro c hc
        rw [show pyJoin [pyCapitalize t0] = pyCapitalize t0 from rfl, hcap, ht0] at hc
        cases hc
    | cons c0 cs0 =>
      have hcap : pyCapitalize t0 = String.mk (pyCharUpper c0 :: cs0.map pyCharLower) := by
        unfold pyCapitalize; rw [ht0]
      constructor
      · intro c hc
        rw [show pyJoin [pyCapitalize t0] = pyCapitalize t0 from rfl, hcap] at hc
        injection hc with hc1
        rw [← hc1]
        exact pyCharUpper_pyCharUpper c0
      · intro c hc
        rw [show pyJoin [pyCapitalize t0] = pyCapitalize t0 from rfl, hcap] at hc
        obtain ⟨a, _, rfl⟩ := List.mem_map.mp hc
        exact pyCharLower_pyCharLower a
  | cons s2 r2 =>
    have hdata : (pyJoin (pyCapitalize t0 :: s2 :: r2)).data =
        (pyCapitalize t0).data ++ (' ' :: (pyJoin (s2 :: r2)).data) := by
      simp [pyJoin, String.data_append, List.append_assoc,
        show (" " : String).data = [' '] from rfl]
    cases ht0 : t0.data with
    | nil =>
      have hcap : pyCapitalize t0 = t0 := by unfold pyCapitalize; rw [ht0]
      rw [hcap, ht0] at hdata
      constructor
      · intro c hc
        rw [hcap, hdata] at hc
        injection hc with hc1
        rw [← hc1]
        decide
      · intro c hc
        rw [hcap, hdata] at hc
        exact hjoin c hc
    | cons c0 cs0 =>
      have hcap : pyCapitalize t0 = String.mk (pyCharUpper c0 :: cs0.map pyCharLower) := by
        unfold pyCapitalize; rw [ht0]
      rw [hcap] at hdata
      constructor
      · intro c hc
        rw [hcap, hdata] at hc
        injection hc with hc1
        rw [← hc1]
        exact pyCharUpper_pyCharUpper c0
      · intro c hc
        rw [hcap, hdata] at hc
        simp only [List.cons_append, List.tail_cons] at hc
        rcases List.mem_append.mp hc with hm | hm
        · obtain ⟨a, _, rfl⟩ := List.mem_map.mp hm
          exact pyCharLower_pyCharLower a
        · cases hm with
          | head => decide
          | tail _ hm2 => exact hjoin c hm2

/-! ## Claim C8: termination, at most 4 parts -/

/-- C8: for every vocabulary, dictionary, learning-target list and
random stream, the generation loop terminates: from either initial
state its result is already stable at fuel 4 (more fuel never changes
it), and a normal completion carries no pending part and at most 4
sentence parts. -/
theorem claim_C8_termination (words : Words) (d : List (String × Word))
    (wl : List String) (rng : List Nat) (b : Bool) (fuel : Nat) (hfuel : 4 ≤ fuel) :
    runLoop words d wl fuel (SentenceGenerator.init b) rng =
      runLoop words d wl 4 (SentenceGenerator.init b) rng ∧
    (∀ gf rngf, runLoop words d wl fuel (SentenceGenerator.init b) rng = .ok (gf, rngf) →
      gf.nextPart = none ∧ gf.sentence.length ≤ 4) := by
  have hrank : partRank (SentenceGenerator.init b).nextPart ≤ 4 ∧
      1 ≤ partRank (SentenceGenerator.init b).nextPart := by
    cases b <;> simp [SentenceGenerator.init, partRank]
  constructor
  · exact runLoop_stable words d wl fuel (SentenceGenerator.init b) rng 4 hrank.1 hrank.2
      (le_trans hrank.1 hfuel) hrank.1
  · intro gf rngf hrun
    obtain ⟨hnone, t, ht, hlen, _⟩ := runLoop_sound words d wl fuel
      (SentenceGenerator.init b) rng hrank.1 (le_trans hrank.1 hfuel) gf rngf hrun
    refine ⟨hnone, ?_⟩
    rw [ht, show (SentenceGenerator.init b).sentence = [] from rfl, List.nil_append]
    omega

/-- C8 witness: a concrete complete run with fuel 5 agrees with fuel 4
and yields at most 4 parts. -/
theorem claim_C8_termination_witness :
    (runLoop sampleWords sampleDict ["я"] 5 (SentenceGenerator.init false) [0, 1, 0] =
      runLoop sampleWords sampleDict ["я"] 4 (SentenceGenerator.init false) [0, 1, 0]) ∧
    (∀ gf rngf,
      runLoop sampleWords sampleDict ["я"] 5 (SentenceGenerator.init false) [0, 1, 0] =
        .ok (gf, rngf) → gf.nextPart = none ∧ gf.sentence.length ≤ 4) :=
  claim_C8_termination sampleWords sampleDict ["я"] [0, 1, 0] false 5 (by decide)

/-! ## Claim C2: the infinitive chain -/

/-- C2: when the finite-verb step picks a verb with
`expectInfinitive = true`, the machine appends its rendered text,
moves to the `Verb(Infinitive)` state and continues; the subsequent
step appends exactly one further token, the text of a verb chosen by
`newOrAnyNotExpectsInfinitiveVerb` — necessarily one with
`expectInfinitive = false` — and terminates.  When the finite verb has
`expectInfinitive = false`, the machine terminates at once and no
further token is appended. -/
theorem claim_C2_infinitiveChain (words : Words) (d : List (String × Word))
    (wl : List String) (b : Bool) (s : List String) (form : WordForm)
    (vq : Option VerbQuestion) (rng : List Nat) (v : VerbWordData) (rng₁ : List Nat)
    (hform : form.conjugationType ≠ ConjugationType.Infinitive)
    (hpick : newOrAnyVerbR words.verbs d wl rng = .ok (.verbWord v, rng₁)) :
    (v.expectInfinitive = true →
      ∀ txt, verbTextInForm v form = .ok txt →
        generateNextPart words d wl
          { startWithQuestion := b, sentence := s,
            nextPart := some { type := .Word, wordType := some .Verb,
                               wordForm := some form, verbQuestion := vq } } rng =
          .ok ({ startWithQuestion := b, sentence := s ++ [txt],
                 nextPart := some { type := .Word, wordType := some .Verb,
                                    wordForm :=
                                      some { conjugationType := .Infinitive } } },
               rng₁, true) ∧
        (∀ res, generateNextPart words d wl
            { startWithQuestion := b, sentence := s ++ [txt],
              nextPart := some { type := .Word, wordType := some .Verb,
                                 wordForm := some { conjugationType := .Infinitive } } }
            rng₁ = .ok res →
          ∃ w₂ rng₂,
            newOrAnyNotExpectsInfinitiveVerbR words.verbs d wl rng₁ = .ok (w₂, rng₂) ∧
            w₂.expectInfinitive = false ∧
            res = ({ startWithQuestion := b, sentence := s ++ [txt, wordText w₂],
                     nextPart := none }, rng₂, false))) ∧
    (v.expectInfinitive = false →
      ∀ txt, verbTextInForm v form = .ok txt →
        generateNextPart words d wl
          { startWithQuestion := b, sentence := s,
            nextPart := some { type := .Word, wordType := some .Verb,
                               wordForm := some form, verbQuestion := vq } } rng =
          .ok ({ startWithQuestion := b, sentence := s ++ [txt], nextPart := none },
               rng₁, false)) := by
  constructor
  · intro hinf txt hvt
    constructor
    · rw [gnp_verb, if_neg hform, hpick]
      simp only [hvt, hinf, if_true]
    · intro res hres
      rw [gnp_verb, if_pos rfl] at hres
      split at hres
      · cases hres
      · rename_i w₂ rng₂ hw
        refine ⟨w₂, rng₂, hw, newOrAnyNotExpectsInfinitiveVerbR_flag hw, ?_⟩
        injection hres with h1
        rw [← h1, List.append_assoc]
        rfl
  · intro hinf txt hvt
    rw [gnp_verb, if_neg hform, hpick]
    simp only [hvt, hinf, Bool.false_eq_true, if_false]

/-- C2 witness: on the sample vocabulary the targeted verb `хотеть`
(which governs an infinitive) leads to the `Verb(Infinitive)` state and
then exactly one trailing token `любить` from a non-governing verb. -/
theorem claim_C2_infinitiveChain_witness :
    (generateNextPart sampleWords sampleDict ["хотеть"]
        { startWithQuestion := false, sentence := ["я"],
          nextPart := some { type := .Word, wordType := some .Verb,
                             wordForm := some { conjugationType := .First,
                                                singleOrPlural := some .Singular } } }
        [0] =
      .ok ({ startWithQuestion := false, sentence := ["я", "хочу"],
             nextPart := some { type := .Word, wordType := some .Verb,
                                wordForm := some { conjugationType := .Infinitive } } },
           [], true)) ∧
    (∃ w₂ rng₂,
      newOrAnyNotExpectsInfinitiveVerbR sampleWords.verbs sampleDict ["хотеть"] [] =
        .ok (w₂, rng₂) ∧
      w₂.expectInfinitive = false ∧
      (({ startWithQuestion := false, sentence := ["я", "хочу", "любить"],
          nextPart := none } : SentenceGenerator), ([] : List Nat), false) =
        ({ startWithQuestion := false, sentence := ["я", "хочу"] ++ [wordText w₂],
           nextPart := none }, rng₂, false)) := by
  have h := (claim_C2_infinitiveChain sampleWords sampleDict ["хотеть"] false ["я"]
    { conjugationType := .First, singleOrPlural := some .Singular } none [0]
    verbKhotet [] (by decide) rfl).1 rfl "хочу" rfl
  refine ⟨h.1, ?_⟩
  obtain ⟨w₂, rng₂, hw, hflag, hres⟩ := h.2
    ({ startWithQuestion := false, sentence := ["я", "хочу", "любить"],
       nextPart := none }, [], false) rfl
  exact ⟨w₂, rng₂, hw, hflag, by rw [hres]; simp⟩

/-! ## Claim C3: forced question start -/

/-- A successful question-led run always begins with the token of the
question-word pick. -/
theorem generateSentenceFrom_question (words : Words) (d : List (String × Word))
    (wl : List String) (rng : List Nat) (out : String)
    (h : generateSentenceFrom words d wl true rng = .ok out) :
    ∃ w rng₂ rest, newOrAnyWordR words.questionWords d wl rng = .ok (w, rng₂) ∧
      out = pyJoin (pyCapitalize (wordText w) :: rest) := by
  unfold generateSentenceFrom at h
  split at h
  · cases h
  · rename_i g rngf hrun
    rw [show (4 : Nat) = 3 + 1 from rfl] at hrun
    simp only [runLoop] at hrun
    rw [show SentenceGenerator.init true =
      { startWithQuestion := true, sentence := [],
        nextPart := some { type := .Word, wordType := some .Question } } from rfl] at hrun
    rw [gnp_question] at hrun
    split at hrun
    · cases hrun
    · rename_i g1 rng1 cont heq
      split at heq
      · cases heq
      · rename_i w wrng hw
        simp only [Except.ok.injEq, Prod.mk.injEq] at heq
        obtain ⟨hg1, hr1, hcont⟩ := heq
        subst hg1
        subst hr1
        subst hcont
        simp only [if_true] at hrun
        obtain ⟨hnone, t, ht, hlen, hlow⟩ := runLoop_sound words d wl 3
          { startWithQuestion := true, sentence := [] ++ [wordText w],
            nextPart := some { type := .Word, wordType := some .Pronoun } } wrng
          (by simp [partRank]) (by simp [partRank]) g rngf hrun
        split at h
        · cases h
        · rename_i s0 rest hcons
          rw [hcons] at ht
          simp only [List.cons_append, List.nil_append] at ht
          injection ht with ht1 ht2
          injection h with hout
          exact ⟨w, wrng, rest, hw, by rw [← hout, ht1]⟩

/-- C3: if some learning target resolves to a Question-type word, the
start state is the `Question` state regardless of the coin (the random
stream is not consumed for it), and a successful sentence begins with
the question-word token; with no Question-type target the start state
follows the coin flip alone (`Question` on odd, `Pronoun` on even). -/
theorem claim_C3_questionStart (words : Words) (d : List (String × Word))
    (wl : List String) (rng : List Nat) (resolved : List Word)
    (hres : resolveTargets d wl = .ok resolved) :
    (resolved.any (fun w => w.type == WordType.Question) = true →
      generateSentence words d wl rng = generateSentenceFrom words d wl true rng ∧
      (SentenceGenerator.init true).nextPart =
        some { type := .Word, wordType := some .Question } ∧
      (∀ out, generateSentence words d wl rng = .ok out →
        ∃ w rng₂ rest, newOrAnyWordR words.questionWords d wl rng = .ok (w, rng₂) ∧
          out = pyJoin (pyCapitalize (wordText w) :: rest))) ∧
    (resolved.any (fun w => w.type == WordType.Question) = false →
      generateSentence words d wl rng =
        generateSentenceFrom words d wl ((draw rng).1 % 2 == 1) (draw rng).2 ∧
      (SentenceGenerator.init false).nextPart =
        some { type := .Word, wordType := some .Pronoun }) := by
  have hgen : generateSentence words d wl rng =
      (if resolved.any (fun w => w.type == WordType.Question) then
        generateSentenceFrom words d wl true rng
      else
        generateSentenceFrom words d wl ((draw rng).1 % 2 == 1) (draw rng).2) := by
    unfold generateSentence
    rw [hres]
  constructor
  · intro hq
    have h1 : generateSentence words d wl rng = generateSentenceFrom words d wl true rng := by
      rw [hgen, if_pos hq]
    exact ⟨h1, rfl, fun out hout =>
      generateSentenceFrom_question words d wl rng out (h1 ▸ hout)⟩
  · intro hq
    refine ⟨?_, rfl⟩
    rw [hgen, if_neg (by simp [hq])]

/-- C3 witness: the target `["когда"]` resolves to a question word, so
the run starts in the `Question` state with the stream untouched, and
the concrete output starts with the question token. -/
theorem claim_C3_questionStart_witness :
    (generateSentence sampleWords sampleDict ["когда"] [0, 0, 0, 0] =
      generateSentenceFrom sampleWords sampleDict ["когда"] true [0, 0, 0, 0]) ∧
    (∃ w rng₂ rest,
      newOrAnyWordR sampleWords.questionWords sampleDict ["когда"] [0, 0, 0, 0] =
        .ok (w, rng₂) ∧
      "Когда я хочу любить" = pyJoin (pyCapitalize (wordText w) :: rest)) := by
  have h := (claim_C3_questionStart sampleWords sampleDict ["когда"] [0, 0, 0, 0]
    [Word.questionWord "Когда"] rfl).1 (by decide)
  exact ⟨h.1, h.2.2 "Когда я хочу любить" rfl⟩

/-! ## Claim C6: output shape and casing -/

/-- Any successful run returns the capitalized first token joined to
the remaining (all lower-cased) tokens by single spaces. -/
theorem generateSentenceFrom_shape (words : Words) (d : List (String × Word))
    (wl : List String) (b : Bool) (rng : List Nat) (out : String)
    (h : generateSentenceFrom words d wl b rng = .ok out) :
    ∃ t0 rest, out = pyJoin (pyCapitalize t0 :: rest) ∧ pyLower t0 = t0 ∧
      ∀ t2 ∈ rest, pyLower t2 = t2 := by
  unfold generateSentenceFrom at h
  split at h
  · cases h
  · rename_i g rngf hrun
    have hrank : partRank (SentenceGenerator.init b).nextPart ≤ 4 := by
      cases b <;> simp [SentenceGenerator.init, partRank]
    obtain ⟨hnone, t, ht, hlen, hlow⟩ := runLoop_sound words d wl 4
      (SentenceGenerator.init b) rng hrank hrank g rngf hrun
    have hall : ∀ tok ∈ g.sentence, pyLower tok = tok := by
      intro tok hm
      rw [ht, show (SentenceGenerator.init b).sentence = [] from rfl,
        List.nil_append] at hm
      exact hlow tok hm
    split at h
    · cases h
    · rename_i s0 rest hcons
      injection h with hout
      rw [hcons] at hall
      exact ⟨s0, rest, hout.symm, hall s0 (by simp), fun t2 hm => hall t2 (by simp [hm])⟩

/-- C6: every successful `generateSentence` output is the chosen tokens
joined with single spaces, the first capitalized and nothing appended
after the last; every token is `pyLower`-invariant before joining, so
the first code point of the output is fixed by upper-casing and every
later one is fixed by lower-casing. -/
theorem claim_C6_outputShape (words : Words) (d : List (String × Word))
    (wl : List String) (rng : List Nat) (out : String)
    (h : generateSentence words d wl rng = .ok out) :
    (∃ t0 rest, out = pyJoin (pyCapitalize t0 :: rest) ∧ pyLower t0 = t0 ∧
      ∀ t2 ∈ rest, pyLower t2 = t2) ∧
    (∀ c, out.data.head? = some c → pyCharUpper c = c) ∧
    (∀ c ∈ out.data.tail, pyCharLower c = c) := by
  have hfrom : ∃ b rng₂, generateSentenceFrom words d wl b rng₂ = .ok out := by
    unfold generateSentence at h
    split at h
    · cases h
    · split at h
      · exact ⟨true, rng, h⟩
      · exact ⟨_, _, h⟩
  obtain ⟨b, rng₂, hb⟩ := hfrom
  obtain ⟨t0, rest, hout, h0, hr⟩ := generateSentenceFrom_shape words d wl b rng₂ out hb
  have hcap := capJoin_chars t0 rest hr
  exact ⟨⟨t0, rest, hout, h0, hr⟩, by rw [hout]; exact hcap.1, by rw [hout]; exact hcap.2⟩

/-- C6 witness: a concrete run produces `Я хочу любить`, whose first
code point is upper-case-fixed and whose remaining code points are
lower-case-fixed. -/
theorem claim_C6_outputShape_witness :
    (∃ t0 rest, "Я хочу любить" = pyJoin (pyCapitalize t0 :: rest) ∧ pyLower t0 = t0 ∧
      ∀ t2 ∈ rest, pyLower t2 = t2) ∧
    (∀ c, ("Я хочу любить" : String).data.head? = some c → pyCharUpper c = c) ∧
    (∀ c ∈ ("Я хочу любить" : String).data.tail, pyCharLower c = c) :=
  claim_C6_outputShape sampleWords sampleDict ["я"] [0, 1, 0] "Я хочу любить" rfl
